import Mathlib

/-!
Verification of the engagement/points core of the Discord bot
(`src/index.js`, second revision: the variant with the `verified` flag,
the daily message tracker, wallet connect and the eight-key score config).

The Supabase tables are embedded as explicit state (`Store`); each handler
becomes a pure function from the incoming state (plus the parts of the
environment the handler consults) to the outgoing state and the reply.
Network reads are modelled as reliable (a failing `.single()` fetch is
identified with the row being absent, which is what the code checks for);
the one write whose failure the code branches on (the points update in
`awardPoints`, `updateErr`) is modelled by an explicit `updateOk` flag.
-/

namespace EngagementBot

/-- A row of the `users` table. The JS guard `userData.points || 0` is the
identity on integer-valued points, so `points` is a plain integer. -/
structure UserRecord where
  twitter_id : Option String
  sol_wallet : Option String
  points : Int
  notify_enabled : Bool
deriving Repr, DecidableEq

/-- A row of the append-only `activity_logs` table (see `logActivity`). -/
structure ActivityLogEntry where
  discord_id : String
  action : String
  points : Int
deriving Repr, DecidableEq

/-- A row of the append-only `admin_logs` table (see `logAdminAction`). -/
structure AdminLogEntry where
  admin_id : String
  user_id : String
  action : String
  points_changed : Option Int
deriving Repr, DecidableEq

/-- The database state the bot reads and writes: the `users` table (an
association list keyed by `discord_id`), the two append-only logs, and the
`processed_tweets` dedup table. -/
structure Store where
  users : List (String × UserRecord)
  activity_logs : List ActivityLogEntry
  admin_logs : List AdminLogEntry
  processed_tweets : List String
deriving Repr, DecidableEq

/-- `discord_id` is the primary key of `users`: no two rows share it. -/
abbrev Store.wf (s : Store) : Prop := (s.users.map Prod.fst).Nodup

/-- `select ... .eq("discord_id", id).single()`: the row with that key. -/
def lookupUser (s : Store) (discordId : String) : Option UserRecord :=
  (s.users.find? (fun p => p.1 == discordId)).map (·.2)

/-- `update {..}.eq("discord_id", id)`: rewrite the rows with that key. -/
def updateUser (s : Store) (discordId : String) (f : UserRecord → UserRecord) : Store :=
  { s with users := s.users.map (fun p => if p.1 == discordId then (p.1, f p.2) else p) }

/-- JS truthiness of an optional string column: null and "" are falsy. -/
def strTruthy : Option String → Bool
  | none => false
  | some str => str != ""

/-- `logActivity`: insert one row into `activity_logs`. -/
def logActivity (s : Store) (discordId action : String) (points : Int) : Store :=
  { s with activity_logs := s.activity_logs ++ [⟨discordId, action, points⟩] }

/-- `logAdminAction`: insert one row into `admin_logs`. -/
def logAdminAction (s : Store) (adminId userId action : String)
    (pointsChanged : Option Int) : Store :=
  { s with admin_logs := s.admin_logs ++ [⟨adminId, userId, action, pointsChanged⟩] }

/-- The object `awardPoints` resolves with:
`{ newPoints, notifyEnabled, verified }` (null `newPoints` means the award
did not go through). -/
structure AwardResult where
  newPoints : Option Int
  notifyEnabled : Bool
  verified : Bool
deriving Repr, DecidableEq

/-- The `accepted` field of the §4.1 contract: in the code the caller tests
`result.newPoints !== null`. -/
def AwardResult.accepted (r : AwardResult) : Bool := r.newPoints.isSome

/-- `awardPoints(discordId, pointsToAdd, action)` from `src/index.js`
(second revision): fetch the user row; absent row or falsy `twitter_id`
means not verified (nothing written); otherwise write
`oldPoints + pointsToAdd` back; if that update fails (`updateOk = false`)
report failure with `verified = true`; on success insert one activity-log
row when `pointsToAdd` is nonzero. -/
def awardPoints (s : Store) (updateOk : Bool) (discordId : String)
    (pointsToAdd : Int) (action : String) : AwardResult × Store :=
  match lookupUser s discordId with
  | none => (⟨none, true, false⟩, s)
  | some userData =>
    if !(strTruthy userData.twitter_id) then
      (⟨none, true, false⟩, s)
    else
      let oldPoints := userData.points
      let newPoints := oldPoints + pointsToAdd
      if !updateOk then
        (⟨none, true, true⟩, s)
      else
        let s1 := updateUser s discordId (fun u => { u with points := newPoints })
        let s2 := if pointsToAdd ≠ 0 then logActivity s1 discordId action pointsToAdd else s1
        (⟨some newPoints, userData.notify_enabled, true⟩, s2)

/-! ## Scoring config and the editscores handler -/

/-- `SCORE_CONFIG` (second revision): the eight mutable scoring values. -/
structure ScoreConfig where
  messagesPerPoint : Int
  messageMaxPointsPerDay : Int
  reactionPoints : Int
  connectWalletPoints : Int
  likePoints : Int
  retweetPoints : Int
  quoteRetweetPoints : Int
  replyPoints : Int
deriving Repr, DecidableEq

/-- The initial `SCORE_CONFIG` literal. -/
def defaultScoreConfig : ScoreConfig :=
  { messagesPerPoint := 5
    messageMaxPointsPerDay := 20
    reactionPoints := 2
    connectWalletPoints := 10
    likePoints := 4
    retweetPoints := 7
    quoteRetweetPoints := 10
    replyPoints := 8 }

/-- `Object.keys(SCORE_CONFIG)`: the enumerable key set of the config. -/
def scoreConfigKeys : List String :=
  ["messagesPerPoint", "messageMaxPointsPerDay", "reactionPoints",
   "connectWalletPoints", "likePoints", "retweetPoints",
   "quoteRetweetPoints", "replyPoints"]

/-- `SCORE_CONFIG[key] = value` for an own property of the config object;
`none` when the key is not an own property (`hasOwnProperty` fails). -/
def setScoreField (cfg : ScoreConfig) (key : String) (value : Int) : Option ScoreConfig :=
  if key == "messagesPerPoint" then some { cfg with messagesPerPoint := value }
  else if key == "messageMaxPointsPerDay" then some { cfg with messageMaxPointsPerDay := value }
  else if key == "reactionPoints" then some { cfg with reactionPoints := value }
  else if key == "connectWalletPoints" then some { cfg with connectWalletPoints := value }
  else if key == "likePoints" then some { cfg with likePoints := value }
  else if key == "retweetPoints" then some { cfg with retweetPoints := value }
  else if key == "quoteRetweetPoints" then some { cfg with quoteRetweetPoints := value }
  else if key == "replyPoints" then some { cfg with replyPoints := value }
  else none

/-- `SCORE_CONFIG[key]` read back, again keyed by name. -/
def getScoreField (cfg : ScoreConfig) (key : String) : Option Int :=
  if key == "messagesPerPoint" then some cfg.messagesPerPoint
  else if key == "messageMaxPointsPerDay" then some cfg.messageMaxPointsPerDay
  else if key == "reactionPoints" then some cfg.reactionPoints
  else if key == "connectWalletPoints" then some cfg.connectWalletPoints
  else if key == "likePoints" then some cfg.likePoints
  else if key == "retweetPoints" then some cfg.retweetPoints
  else if key == "quoteRetweetPoints" then some cfg.quoteRetweetPoints
  else if key == "replyPoints" then some cfg.replyPoints
  else none

/-- The reply of the `/editscores` handler: either the validation error
(whose text lists `Object.keys(SCORE_CONFIG)`) or the success reply. -/
inductive EditScoresReply where
  | invalidKey (validKeys : List String)
  | updated (key : String) (value : Int)
deriving Repr, DecidableEq

/-- The `/editscores` handler body (permission check aside): reject keys
that are not own properties of `SCORE_CONFIG`, listing the valid keys;
otherwise assign the value to that key. -/
def editscores (cfg : ScoreConfig) (key : String) (value : Int) :
    ScoreConfig × EditScoresReply :=
  match setScoreField cfg key value with
  | none => (cfg, .invalidKey scoreConfigKeys)
  | some cfg1 => (cfg1, .updated key value)

/-! ## Daily message throttle (the messageCreate handler) -/

/-- One entry of the in-memory `dailyMessageTracker` map:
`{ date, messagesSoFar, pointsEarnedToday }`. -/
structure DailyCounter where
  date : String
  messagesSoFar : Int
  pointsEarnedToday : Int
deriving Repr, DecidableEq

/-- The head of the messageCreate handler: initialise a missing tracker
entry, reset it when its stored date string differs from the current date
string, then unconditionally count this message. -/
def rolloverAndCount (today : String) (tracker : Option DailyCounter) : DailyCounter :=
  let c : DailyCounter :=
    match tracker with
    | none => ⟨today, 0, 0⟩
    | some c => if c.date != today then ⟨today, 0, 0⟩ else c
  { c with messagesSoFar := c.messagesSoFar + 1 }

/-- The bookkeeping of the messageCreate handler, store-independent: the
updated tracker entry and the amount handed to `awardPoints` (0 when no
award is attempted). Counts are nonnegative here, where JS `%` and `Int`
emod agree. -/
def messageThrottle (cfg : ScoreConfig) (today : String) (tracker : Option DailyCounter) :
    DailyCounter × Int :=
  let c := rolloverAndCount today tracker
  if c.pointsEarnedToday ≥ cfg.messageMaxPointsPerDay then (c, 0)
  else if c.messagesSoFar % cfg.messagesPerPoint == 0 then
    let potentialPoints : Int := 1
    let canStillEarn := cfg.messageMaxPointsPerDay - c.pointsEarnedToday
    let pointsToAward := min potentialPoints canStillEarn
    if pointsToAward ≤ 0 then (c, 0)
    else ({ c with pointsEarnedToday := c.pointsEarnedToday + pointsToAward }, pointsToAward)
  else (c, 0)

/-- What one messageCreate event leaves behind: the store, the tracker
entry for the author, and the awardPoints call made, if any, with the
amount passed and the result received. -/
structure MessageOutcome where
  store : Store
  tracker : DailyCounter
  attempted : Option (Int × AwardResult)
deriving Repr, DecidableEq

/-- The messageCreate handler (second revision): rollover and count, stop
hard at the daily cap, on every fifth message award
`min 1 (cap - earned)`, and bump `pointsEarnedToday` by that amount right
after calling `awardPoints` — with no look at the call result. -/
def handleMessage (cfg : ScoreConfig) (updateOk : Bool) (today : String)
    (s : Store) (tracker : Option DailyCounter) (discordId : String) : MessageOutcome :=
  let c := rolloverAndCount today tracker
  if c.pointsEarnedToday ≥ cfg.messageMaxPointsPerDay then ⟨s, c, none⟩
  else if c.messagesSoFar % cfg.messagesPerPoint == 0 then
    let potentialPoints : Int := 1
    let canStillEarn := cfg.messageMaxPointsPerDay - c.pointsEarnedToday
    let pointsToAward := min potentialPoints canStillEarn
    if pointsToAward ≤ 0 then ⟨s, c, none⟩
    else
      let r := awardPoints s updateOk discordId pointsToAward "message_points"
      ⟨r.2, { c with pointsEarnedToday := c.pointsEarnedToday + pointsToAward },
        some (pointsToAward, r.1)⟩
  else ⟨s, c, none⟩

/-- The tracker entry after a run of messages by one user on one date,
starting from an arbitrary entry. -/
def trackFrom (cfg : ScoreConfig) (today : String) (tracker : Option DailyCounter) :
    Nat → Option DailyCounter
  | 0 => tracker
  | n + 1 => some (messageThrottle cfg today (trackFrom cfg today tracker n)).1

/-- The amount the throttle releases on the k-th message of such a run. -/
def releaseFrom (cfg : ScoreConfig) (today : String) (tracker : Option DailyCounter) :
    Nat → Int
  | 0 => 0
  | n + 1 => (messageThrottle cfg today (trackFrom cfg today tracker n)).2

/-- The total the throttle releases over the first n messages of a run. -/
def totalFrom (cfg : ScoreConfig) (today : String) (tracker : Option DailyCounter) :
    Nat → Int
  | 0 => 0
  | n + 1 => totalFrom cfg today tracker n + releaseFrom cfg today tracker (n + 1)

/-- Left-pad the decimal form of the absolute value of an integer with
zeros to the given width. -/
def padZeros (width : Nat) (n : Int) : String :=
  let s := toString n.natAbs
  String.mk (List.replicate (width - s.length) '0') ++ s

/-- The date string the messageCreate handler computes for "today": the
date part of toISOString of the current instant, that is the proleptic
Gregorian UTC calendar date YYYY-MM-DD of epochMs milliseconds since the
Unix epoch (in the four-digit-year range toISOString prints this way).
The civil-from-days conversion is the standard era-based algorithm; all
divisions are floor divisions, as in the Date day computation. -/
def toISODateString (epochMs : Int) : String :=
  let days := Int.fdiv epochMs 86400000
  let z := days + 719468
  let era := Int.fdiv z 146097
  let doe := z - era * 146097
  let yoe := Int.fdiv (doe - Int.fdiv doe 1460 + Int.fdiv doe 36524 - Int.fdiv doe 146096) 365
  let y := yoe + era * 400
  let doy := doe - (365 * yoe + Int.fdiv yoe 4 - Int.fdiv yoe 100)
  let mp := Int.fdiv (5 * doy + 2) 153
  let d := doy - Int.fdiv (153 * mp + 2) 5 + 1
  let m := mp + (if mp < 10 then 3 else -9)
  let year := y + (if m ≤ 2 then 1 else 0)
  padZeros 4 year ++ "-" ++ padZeros 2 m ++ "-" ++ padZeros 2 d

/-- Modelled from the spec: the calendar date of the caller at wall-clock
time — the calendar date at the process UTC offset (offsetMs milliseconds
east of UTC), whose day boundary is the local midnight the spec
describes. The code computes no such thing; this definition exists to be
compared with toISODateString, the date the code actually uses. -/
def localDateString (epochMs offsetMs : Int) : String :=
  toISODateString (epochMs + offsetMs)

/-! ## Twitter poller (checkTwitterActivity and helpers) -/

/-- What one poll cycle sees of the outside world: the resolved account id
(none on fetch failure), the timeline of tweet ids (none on fetch failure
or empty response), per tweet the ids of the liking and retweeting
accounts (none on a 403 or other per-tweet fetch error), and whether the
points updates of this cycle succeed. -/
structure PollEnv where
  accountId : Option String
  timeline : Option (List String)
  engagement : String → Option (List String × List String)
  updateOk : Bool

/-- `hasProcessedTweet`: membership in the `processed_tweets` table. -/
def hasProcessedTweet (s : Store) (tweetId : String) : Bool :=
  s.processed_tweets.contains tweetId

/-- `markTweetAsProcessed`: insert into `processed_tweets`. -/
def markTweetAsProcessed (s : Store) (tweetId : String) : Store :=
  { s with processed_tweets := s.processed_tweets ++ [tweetId] }

/-- The body of the per-user loop of `awardTweetEngagementPoints`: skip
rows with a falsy `twitter_id`; if the id appears among the likers, award
the like points with label `twitter_like`; if it appears among the
retweeters, award the retweet points with label `twitter_retweet`. -/
def engageUser (cfg : ScoreConfig) (updateOk : Bool)
    (likesData retweetsData : List String) (s : Store)
    (u : String × UserRecord) : Store :=
  match u.2.twitter_id with
  | none => s
  | some tid =>
    if tid == "" then s
    else
      let s1 := if likesData.contains tid then
          (awardPoints s updateOk u.1 cfg.likePoints "twitter_like").2
        else s
      if retweetsData.contains tid then
        (awardPoints s1 updateOk u.1 cfg.retweetPoints "twitter_retweet").2
      else s1

/-- `awardTweetEngagementPoints(tweetId)`: fetch all user rows (modelled
as reading the current table), fetch likers and retweeters of the tweet
(abort on failure, which covers the 403 path), then run the per-user loop
over the row list read at the start. -/
def awardTweetEngagementPoints (cfg : ScoreConfig) (env : PollEnv)
    (s : Store) (tweetId : String) : Store :=
  match env.engagement tweetId with
  | none => s
  | some (likesData, retweetsData) =>
    s.users.foldl (engageUser cfg env.updateOk likesData retweetsData) s

/-- One iteration of the tweet loop in `checkTwitterActivity`: if the
tweet is not yet processed, mark it and (when an updates channel is
configured) announce it; then, regardless, attempt the engagement awards.
The second component of the accumulator collects the announced tweet
ids in order. -/
def processTweet (cfg : ScoreConfig) (env : PollEnv) (channelSet : Bool)
    (acc : Store × List String) (tweetId : String) : Store × List String :=
  let s := acc.1
  let announced := acc.2
  let processed := hasProcessedTweet s tweetId
  let (s1, announced1) :=
    if !processed then
      (markTweetAsProcessed s tweetId,
       if channelSet then announced ++ [tweetId] else announced)
    else (s, announced)
  (awardTweetEngagementPoints cfg env s1 tweetId, announced1)

/-- `checkTwitterActivity`: resolve the account (abort the cycle on
failure), fetch the timeline (abort on failure), then process each tweet
in order. Returns the updated store and the announced tweet ids. -/
def checkTwitterActivity (cfg : ScoreConfig) (env : PollEnv) (channelSet : Bool)
    (s : Store) : Store × List String :=
  match env.accountId with
  | none => (s, [])
  | some _ =>
    match env.timeline with
    | none => (s, [])
    | some tweets => tweets.foldl (processTweet cfg env channelSet) (s, [])

/-- A run of consecutive poll cycles, each with its own environment;
returns the final store and the concatenated announcements. -/
def runCycles (cfg : ScoreConfig) (channelSet : Bool) :
    List PollEnv → Store → Store × List String
  | [], s => (s, [])
  | env :: rest, s =>
    let c := checkTwitterActivity cfg env channelSet s
    let r := runCycles cfg channelSet rest c.1
    (r.1, c.2 ++ r.2)

/-! ## The connectwallet and verify handlers -/

/-- The reply of the `/connectwallet` handler. -/
inductive WalletReply where
  | invalidAddress
  | verifyFirst
  | noPoints
  | awarded (points : Int)
  | alreadyConnected
deriving Repr, DecidableEq

/-- The `/connectwallet` handler: reject a falsy address; with no user row,
upsert a fresh row carrying the wallet (then the refetched row cannot have
a linked handle, so no points); with a row whose `sol_wallet` is truthy,
reply already-connected and change nothing; otherwise store the wallet,
and if the user is verified award the connect-wallet points. -/
def connectwallet (cfg : ScoreConfig) (updateOk : Bool) (s : Store)
    (discordId : String) (walletAddr : Option String) : Store × WalletReply :=
  if !(strTruthy walletAddr) then (s, .invalidAddress)
  else
    let addr := walletAddr.getD ""
    match lookupUser s discordId with
    | none =>
      let s1 : Store :=
        { s with users := s.users ++ [(discordId, ⟨none, some addr, 0, true⟩)] }
      match lookupUser s1 discordId with
      | none => (s1, .noPoints)
      | some newUserRec =>
        if !(strTruthy newUserRec.twitter_id) then (s1, .verifyFirst)
        else
          let r := awardPoints s1 updateOk discordId cfg.connectWalletPoints "connect_wallet"
          match r.1.newPoints with
          | none => (r.2, .noPoints)
          | some _ => (r.2, .awarded cfg.connectWalletPoints)
    | some userRec =>
      if strTruthy userRec.sol_wallet then (s, .alreadyConnected)
      else
        let s1 := updateUser s discordId (fun v => { v with sol_wallet := some addr })
        if !(strTruthy userRec.twitter_id) then (s1, .verifyFirst)
        else
          let r := awardPoints s1 updateOk discordId cfg.connectWalletPoints "connect_wallet"
          match r.1.newPoints with
          | none => (r.2, .noPoints)
          | some _ => (r.2, .awarded cfg.connectWalletPoints)

/-- The `/verify` handler: upsert `{ discord_id, twitter_id }` keyed on
`discord_id` (update the handle of an existing row, or insert a fresh
row), then reply success. -/
def verifyCmd (s : Store) (discordId : String) (twitterId : String) : Store × Bool :=
  match lookupUser s discordId with
  | some _ =>
    (updateUser s discordId (fun v => { v with twitter_id := some twitterId }), true)
  | none =>
    ({ s with users := s.users ++ [(discordId, ⟨some twitterId, none, 0, true⟩)] }, true)

/-- Whether a user currently counts as verified: the row exists and its
`twitter_id` is truthy. -/
def userVerified (s : Store) (discordId : String) : Bool :=
  match lookupUser s discordId with
  | none => false
  | some u => strTruthy u.twitter_id

/-! ## Claims about the awarding engine and the score config -/

/-- C1: when a user has no `users` row, or a row whose `twitter_id` is
unset, then for every amount and action label `awardPoints` returns
`verified = false`, `accepted = false`, `newPoints = null`, leaves the
store untouched (no points write) and appends no activity-log row. -/
theorem award_unverified_no_effect (s : Store) (updateOk : Bool) (uid : String)
    (amount : Int) (action : String)
    (h : lookupUser s uid = none ∨ ∃ u, lookupUser s uid = some u ∧ u.twitter_id = none) :
    awardPoints s updateOk uid amount action = (⟨none, true, false⟩, s) ∧
    (awardPoints s updateOk uid amount action).1.accepted = false ∧
    (awardPoints s updateOk uid amount action).2.activity_logs = s.activity_logs := by
  have hmain : awardPoints s updateOk uid amount action = (⟨none, true, false⟩, s) := by
    rcases h with h | ⟨u, hu, ht⟩
    · unfold awardPoints
      rw [h]
    · unfold awardPoints
      rw [hu]
      simp [strTruthy, ht]
  refine ⟨hmain, ?_, ?_⟩ <;> simp [hmain, AwardResult.accepted]

/-- Witness for C1 on a concrete store: one unverified user row. -/
theorem award_unverified_no_effect_witness :
    let s : Store := ⟨[("alice", ⟨none, none, 7, true⟩)], [], [], []⟩
    awardPoints s true "alice" 5 "reaction_points" = (⟨none, true, false⟩, s) := by
  intro s
  exact (award_unverified_no_effect s true "alice" 5 "reaction_points"
    (Or.inr ⟨⟨none, none, 7, true⟩, by decide, rfl⟩)).1

/-- Rewriting rows keyed by a key that occurs nowhere is the identity. -/
theorem update_map_id (uid : String) (f : UserRecord → UserRecord)
    (l : List (String × UserRecord)) (h : ∀ p ∈ l, p.1 ≠ uid) :
    l.map (fun p => if p.1 == uid then (p.1, f p.2) else p) = l := by
  induction l with
  | nil => rfl
  | cons p t ih =>
    have hp : p.1 ≠ uid := h p (List.mem_cons_self p t)
    have ht := ih (fun q hq => h q (List.mem_cons_of_mem p hq))
    rw [List.map_cons, if_neg (by simp [hp]), ht]

/-- With no duplicate keys, rewriting the rows keyed by `uid` with a
function that fixes the row found there is the identity on the table. -/
theorem find?_update_id (uid : String) (f : UserRecord → UserRecord)
    (l : List (String × UserRecord)) (u : UserRecord)
    (hnd : (l.map Prod.fst).Nodup)
    (hu : (l.find? (fun p => p.1 == uid)).map (·.2) = some u)
    (hf : f u = u) :
    l.map (fun p => if p.1 == uid then (p.1, f p.2) else p) = l := by
  induction l with
  | nil => simp at hu
  | cons p t ih =>
    obtain ⟨k, v⟩ := p
    rw [List.map_cons, List.nodup_cons] at hnd
    by_cases hp : k = uid
    · have hbeq : ((k, v).1 == uid) = true := by simp [hp]
      rw [@List.find?_cons_of_pos _ (fun q => q.1 == uid) (k, v) t hbeq] at hu
      simp only [Option.map_some'] at hu
      have hfp : f v = v := by
        have hv : v = u := Option.some.inj hu
        rw [hv, hf]
      have htail : ∀ q ∈ t, q.1 ≠ uid := by
        intro q hq hq1
        apply hnd.1
        have hmem : q.1 ∈ List.map Prod.fst t := List.mem_map_of_mem Prod.fst hq
        rw [hq1, ← hp] at hmem
        simpa using hmem
      rw [List.map_cons, if_pos hbeq, hfp, update_map_id uid f t htail]
    · have hbeq : ¬ (((k, v).1 == uid) = true) := by simp [hp]
      rw [@List.find?_cons_of_neg _ (fun q => q.1 == uid) (k, v) t hbeq] at hu
      rw [List.map_cons, if_neg hbeq, ih hnd.2 hu]

/-- On a well-formed store, an update that fixes the looked-up row leaves
the store unchanged. -/
theorem updateUser_eq_self (s : Store) (uid : String) (f : UserRecord → UserRecord)
    (u : UserRecord) (hwf : s.wf) (hu : lookupUser s uid = some u) (hf : f u = u) :
    updateUser s uid f = s := by
  unfold updateUser
  rw [find?_update_id uid f s.users u hwf hu hf]

/-- C4: awarding 0 points to a verified user leaves the store exactly as it
was (no observable update, no activity-log row); and in general an
activity-log row is appended only for a nonzero awarded amount, and then it
is exactly one row carrying that delta and that label. -/
theorem award_zero_noop_log_exact (s : Store) (uid : String) (u : UserRecord)
    (act : String) (ok : Bool)
    (hwf : s.wf) (hu : lookupUser s uid = some u) (ht : strTruthy u.twitter_id = true) :
    (awardPoints s ok uid 0 act).2 = s ∧
    (∀ amount : Int,
      (awardPoints s ok uid amount act).2.activity_logs = s.activity_logs ∨
      (amount ≠ 0 ∧
        (awardPoints s ok uid amount act).2.activity_logs =
          s.activity_logs ++ [⟨uid, act, amount⟩])) := by
  constructor
  · unfold awardPoints
    rw [hu]
    cases ok with
    | false => simp [ht]
    | true =>
      simp only [ht, Bool.not_true, Bool.false_eq_true, if_false, ne_eq,
        not_true_eq_false, if_true]
      simp only [add_zero]
      refine updateUser_eq_self s uid _ u hwf hu ?_
      cases u
      rfl
  · intro amount
    unfold awardPoints
    rw [hu]
    simp only [ht, Bool.not_true, Bool.false_eq_true, if_false]
    cases ok with
    | false => left; rfl
    | true =>
      by_cases hA : amount = 0
      · left
        simp [hA, updateUser]
      · right
        exact ⟨hA, by simp [hA, updateUser, logActivity]⟩

/-- Witness for C4 on a concrete store: zero award changes nothing, and a
nonzero award appends exactly its own log row. -/
theorem award_zero_noop_log_exact_witness :
    let s : Store := ⟨[("alice", ⟨some "tw_alice", none, 7, true⟩)], [], [], []⟩
    (awardPoints s true "alice" 0 "zero_test").2 = s ∧
    (awardPoints s true "alice" 5 "msg_test").2.activity_logs = [⟨"alice", "msg_test", 5⟩] := by
  intro s
  have h := award_zero_noop_log_exact s "alice" ⟨some "tw_alice", none, 7, true⟩
    "zero_test" true (by decide) (by decide) (by decide)
  have h5 := award_zero_noop_log_exact s "alice" ⟨some "tw_alice", none, 7, true⟩
    "msg_test" true (by decide) (by decide) (by decide)
  refine ⟨h.1, ?_⟩
  rcases h5.2 5 with hl | ⟨_, hl⟩
  · exact absurd hl (by decide)
  · simpa using hl

/-- C5: for a verified user, when the points update fails (store
unavailable), `awardPoints` returns `accepted = false` but
`verified = true` (distinguishable from the unverified result, whose
`verified` is false), appends no activity-log row and leaves the store
unchanged. -/
theorem award_write_failure_verified (s : Store) (uid : String) (u : UserRecord)
    (amount : Int) (action : String)
    (hu : lookupUser s uid = some u) (ht : strTruthy u.twitter_id = true) :
    awardPoints s false uid amount action = (⟨none, true, true⟩, s) ∧
    (awardPoints s false uid amount action).1.accepted = false ∧
    (awardPoints s false uid amount action).1.verified = true ∧
    (awardPoints s false uid amount action).2.activity_logs = s.activity_logs := by
  have hmain : awardPoints s false uid amount action = (⟨none, true, true⟩, s) := by
    unfold awardPoints
    rw [hu]
    simp [ht]
  refine ⟨hmain, ?_, ?_, ?_⟩ <;> simp [hmain, AwardResult.accepted]

/-- Witness for C5 on a concrete store: one verified user, failing write. -/
theorem award_write_failure_verified_witness :
    let s : Store := ⟨[("alice", ⟨some "tw_alice", none, 7, true⟩)], [], [], []⟩
    awardPoints s false "alice" 5 "twitter_like" = (⟨none, true, true⟩, s) := by
  intro s
  exact (award_write_failure_verified s "alice" ⟨some "tw_alice", none, 7, true⟩
    5 "twitter_like" (by decide) (by decide)).1

/-- C7: setting an unknown scoring key is rejected with a validation error
listing the legal keys and mutates nothing; setting any of the eight known
keys is accepted and updates exactly that key to the given value. -/
theorem editscores_key_validation :
    (∀ (cfg : ScoreConfig) (key : String) (value : Int), key ∉ scoreConfigKeys →
      editscores cfg key value = (cfg, .invalidKey scoreConfigKeys)) ∧
    (∀ (cfg : ScoreConfig) (key : String) (value : Int), key ∈ scoreConfigKeys →
      (editscores cfg key value).2 = .updated key value ∧
      getScoreField (editscores cfg key value).1 key = some value) := by
  constructor
  · intro cfg key value hk
    simp only [scoreConfigKeys, List.mem_cons, List.not_mem_nil, or_false, not_or] at hk
    obtain ⟨h1, h2, h3, h4, h5, h6, h7, h8⟩ := hk
    simp [editscores, setScoreField, h1, h2, h3, h4, h5, h6, h7, h8]
  · intro cfg key value hk
    simp only [scoreConfigKeys, List.mem_cons, List.not_mem_nil, or_false] at hk
    rcases hk with rfl | rfl | rfl | rfl | rfl | rfl | rfl | rfl <;>
      exact ⟨rfl, rfl⟩

/-- Witness for C7: a rejected unknown key and an accepted known key. -/
theorem editscores_key_validation_witness :
    editscores defaultScoreConfig "not_a_key" 5 =
      (defaultScoreConfig, .invalidKey scoreConfigKeys) ∧
    (editscores defaultScoreConfig "likePoints" 9).2 = .updated "likePoints" 9 := by
  constructor
  · exact editscores_key_validation.1 defaultScoreConfig "not_a_key" 5 (by decide)
  · exact (editscores_key_validation.2 defaultScoreConfig "likePoints" 9 (by decide)).1

/-- One throttle step at the default config, on the closed-form state
reached after some messages of the day: the released amount is the growth
of `min (messages / 5) 20`. -/
theorem messageThrottle_closed_step (today : String) (n : Nat) :
    messageThrottle defaultScoreConfig today
        (some ⟨today, (n : Int) + 1, min (((n : Int) + 1) / 5) 20⟩) =
      (⟨today, (n : Int) + 2, min (((n : Int) + 2) / 5) 20⟩,
       min (((n : Int) + 2) / 5) 20 - min (((n : Int) + 1) / 5) 20) := by
  unfold messageThrottle rolloverAndCount
  simp only [defaultScoreConfig, bne_self_eq_false, Bool.false_eq_true, if_false, beq_iff_eq,
    ge_iff_le]
  split_ifs with h1 h2 h3 <;>
    simp only [Prod.mk.injEq, DailyCounter.mk.injEq] <;>
    refine ⟨⟨trivial, by omega, by omega⟩, by omega⟩

/-- Closed form of the default-config throttle run started fresh: after k
messages the tracker holds `min (k / 5) 20` earned points, and that is
also the total released so far. -/
theorem throttle_sim_closed (today : String) :
    ∀ n : Nat,
      trackFrom defaultScoreConfig today none (n + 1) =
        some ⟨today, (n : Int) + 1, min (((n : Int) + 1) / 5) 20⟩ ∧
      totalFrom defaultScoreConfig today none (n + 1) = min (((n : Int) + 1) / 5) 20 := by
  intro n
  induction n with
  | zero =>
    constructor
    · show some (messageThrottle defaultScoreConfig today none).1 = _
      simp [messageThrottle, rolloverAndCount, defaultScoreConfig]
    · show totalFrom defaultScoreConfig today none 0 +
        releaseFrom defaultScoreConfig today none 1 = _
      simp [totalFrom, releaseFrom, trackFrom, messageThrottle, rolloverAndCount,
        defaultScoreConfig]
  | succ n ih =>
    obtain ⟨ihs, iht⟩ := ih
    have hstep := messageThrottle_closed_step today n
    constructor
    · show some (messageThrottle defaultScoreConfig today
        (trackFrom defaultScoreConfig today none (n + 1))).1 = _
      rw [ihs, hstep]
      simp only [Option.some.injEq, DailyCounter.mk.injEq]
      refine ⟨trivial, by omega, by omega⟩
    · show totalFrom defaultScoreConfig today none (n + 1) +
        releaseFrom defaultScoreConfig today none (n + 2) = _
      rw [iht]
      show _ + (messageThrottle defaultScoreConfig today
        (trackFrom defaultScoreConfig today none (n + 1))).2 = _
      rw [ihs, hstep]
      omega

/-- Awarding points never touches the `processed_tweets` table. -/
theorem awardPoints_processed (s : Store) (ok : Bool) (uid : String)
    (amt : Int) (act : String) :
    ((awardPoints s ok uid amt act).2).processed_tweets = s.processed_tweets := by
  unfold awardPoints
  cases h : lookupUser s uid with
  | none => rfl
  | some u =>
    cases ht : strTruthy u.twitter_id with
    | false => simp [ht]
    | true =>
      cases ok with
      | false => simp [ht]
      | true =>
        by_cases hz : amt = 0 <;> simp [ht, hz, updateUser, logActivity]

/-- The per-user engagement loop body never touches `processed_tweets`. -/
theorem engageUser_processed (cfg : ScoreConfig) (ok : Bool)
    (likesData retweetsData : List String) (s : Store) (u : String × UserRecord) :
    (engageUser cfg ok likesData retweetsData s u).processed_tweets = s.processed_tweets := by
  unfold engageUser
  cases u.2.twitter_id with
  | none => rfl
  | some tid =>
    by_cases he : (tid == "") = true
    · simp [he]
    · simp only [he, Bool.false_eq_true, if_false]
      split
      · rw [awardPoints_processed]
        split
        · rw [awardPoints_processed]
        · rfl
      · split
        · rw [awardPoints_processed]
        · rfl

/-- Neither does the whole engagement pass for one tweet. -/
theorem awardTweetEngagementPoints_processed (cfg : ScoreConfig) (env : PollEnv)
    (s : Store) (tweetId : String) :
    (awardTweetEngagementPoints cfg env s tweetId).processed_tweets = s.processed_tweets := by
  unfold awardTweetEngagementPoints
  cases he : env.engagement tweetId with
  | none => rfl
  | some lr =>
    obtain ⟨likesData, retweetsData⟩ := lr
    have hgen : ∀ (l : List (String × UserRecord)) (s0 : Store),
        (l.foldl (engageUser cfg env.updateOk likesData retweetsData) s0).processed_tweets =
          s0.processed_tweets := by
      intro l
      induction l with
      | nil => intro s0; rfl
      | cons u rest ih =>
        intro s0
        rw [List.foldl_cons, ih, engageUser_processed]
    exact hgen s.users s

/-- What one iteration of the tweet loop does to the processed set and the
announcement list: an unprocessed tweet is appended to the processed set
and (channel permitting) announced; a processed one changes neither. -/
theorem processTweet_fields (cfg : ScoreConfig) (env : PollEnv) (channelSet : Bool)
    (acc : Store × List String) (t1 : String) :
    (processTweet cfg env channelSet acc t1).1.processed_tweets =
      (if hasProcessedTweet acc.1 t1 = true then acc.1.processed_tweets
       else acc.1.processed_tweets ++ [t1]) ∧
    (processTweet cfg env channelSet acc t1).2 =
      (if hasProcessedTweet acc.1 t1 = true then acc.2
       else if channelSet then acc.2 ++ [t1] else acc.2) := by
  unfold processTweet
  cases hp : hasProcessedTweet acc.1 t1 <;>
    cases channelSet <;>
      simp [hp, awardTweetEngagementPoints_processed, markTweetAsProcessed]

/-- Once a tweet is in the processed set, a whole tweet loop keeps it there
and announces it zero further times. -/
theorem cycle_count_zero_of_processed (cfg : ScoreConfig) (env : PollEnv)
    (channelSet : Bool) (t : String) :
    ∀ (tweets : List String) (acc : Store × List String),
      hasProcessedTweet acc.1 t = true →
      hasProcessedTweet (tweets.foldl (processTweet cfg env channelSet) acc).1 t = true ∧
      (tweets.foldl (processTweet cfg env channelSet) acc).2.count t = acc.2.count t := by
  intro tweets
  induction tweets with
  | nil => intro acc h; exact ⟨h, rfl⟩
  | cons t1 rest ih =>
    intro acc h
    rw [List.foldl_cons]
    have hf := processTweet_fields cfg env channelSet acc t1
    have hmem : t ∈ acc.1.processed_tweets := by
      have h2 := h
      unfold hasProcessedTweet at h2
      simpa using h2
    have hr1 : hasProcessedTweet (processTweet cfg env channelSet acc t1).1 t = true := by
      unfold hasProcessedTweet
      rw [hf.1]
      by_cases hp : hasProcessedTweet acc.1 t1 = true
      · simpa [hp] using hmem
      · simp only [hp, Bool.false_eq_true, if_false]
        simp
        exact Or.inl hmem
    have hr2 : (processTweet cfg env channelSet acc t1).2.count t = acc.2.count t := by
      rw [hf.2]
      by_cases hp : hasProcessedTweet acc.1 t1 = true
      · simp [hp]
      · have hne : (t1 == t) = false := by
          rcases Bool.eq_false_or_eq_true (t1 == t) with hb | hb
          · exfalso
            have ht1 : t1 = t := eq_of_beq hb
            rw [ht1] at hp
            exact hp h
          · exact hb
        cases channelSet <;>
          simp [hp, List.count_append, List.count_singleton, hne]
    obtain ⟨ha, hb⟩ := ih _ hr1
    exact ⟨ha, hb.trans hr2⟩

/-- The announce-once invariant of one tweet loop: the announcement list
holds the tweet at most once, and as soon as it does, the tweet is in the
processed set. -/
theorem cycle_announce_inv (cfg : ScoreConfig) (env : PollEnv)
    (channelSet : Bool) (t : String) :
    ∀ (tweets : List String) (acc : Store × List String),
      acc.2.count t ≤ 1 →
      (1 ≤ acc.2.count t → hasProcessedTweet acc.1 t = true) →
      ((tweets.foldl (processTweet cfg env channelSet) acc).2.count t ≤ 1 ∧
       (1 ≤ (tweets.foldl (processTweet cfg env channelSet) acc).2.count t →
         hasProcessedTweet (tweets.foldl (processTweet cfg env channelSet) acc).1 t = true)) := by
  intro tweets
  induction tweets with
  | nil => intro acc h1 h2; exact ⟨h1, h2⟩
  | cons t1 rest ih =>
    intro acc h1 h2
    rw [List.foldl_cons]
    have hf := processTweet_fields cfg env channelSet acc t1
    apply ih
    · -- count still at most one after this iteration
      rw [hf.2]
      by_cases hp : hasProcessedTweet acc.1 t1 = true
      · simpa [hp] using h1
      · by_cases hq : t1 = t
        · subst hq
          have hz : acc.2.count t1 = 0 := by
            by_contra hnz
            exact hp (h2 (by omega))
          cases channelSet <;>
            simp [hp, List.count_append, List.count_singleton, hz]
        · have hne : (t1 == t) = false := by
            simpa using hq
          cases channelSet <;>
            simp [hp, List.count_append, List.count_singleton, hne, h1]
    · -- and once announced, the tweet sits in the processed set
      intro hcnt
      unfold hasProcessedTweet
      rw [hf.1]
      rw [hf.2] at hcnt
      by_cases hp : hasProcessedTweet acc.1 t1 = true
      · simp only [hp, if_true]
        simp only [hp, if_true] at hcnt
        exact h2 hcnt
      · simp only [hp, Bool.false_eq_true, if_false]
        by_cases hq : t1 = t
        · subst hq
          simp
        · have hne : (t1 == t) = false := by
            simpa using hq
          have hacc : 1 ≤ acc.2.count t := by
            cases channelSet <;>
              simpa [hp, List.count_append, List.count_singleton, hne] using hcnt
          have hproc := h2 hacc
          unfold hasProcessedTweet at hproc
          simp at hproc ⊢
          exact Or.inl hproc

/-- Announce-once facts of a single poll cycle: the cycle announces a
tweet at most once; an announced tweet ends the cycle marked processed;
and a tweet already processed before the cycle is never announced by it
and stays processed. -/
theorem checkTwitterActivity_announce (cfg : ScoreConfig) (channelSet : Bool)
    (env : PollEnv) (t : String) (s : Store) :
    (checkTwitterActivity cfg env channelSet s).2.count t ≤ 1 ∧
    (1 ≤ (checkTwitterActivity cfg env channelSet s).2.count t →
      hasProcessedTweet (checkTwitterActivity cfg env channelSet s).1 t = true) ∧
    (hasProcessedTweet s t = true →
      hasProcessedTweet (checkTwitterActivity cfg env channelSet s).1 t = true ∧
      (checkTwitterActivity cfg env channelSet s).2.count t = 0) := by
  unfold checkTwitterActivity
  cases ha : env.accountId with
  | none => exact ⟨by simp, by simp, fun h => ⟨h, by simp⟩⟩
  | some a =>
    cases htl : env.timeline with
    | none => exact ⟨by simp, by simp, fun h => ⟨h, by simp⟩⟩
    | some tweets =>
      have hinv := cycle_announce_inv cfg env channelSet t tweets (s, [])
        (by simp) (by simp)
      refine ⟨hinv.1, hinv.2, ?_⟩
      intro h
      have hc := cycle_count_zero_of_processed cfg env channelSet t tweets (s, []) h
      exact ⟨hc.1, by simpa using hc.2⟩

/-- Across any run of poll cycles, each tweet is announced at most once;
and never again once it sits in the processed set. -/
theorem runCycles_announce_once (cfg : ScoreConfig) (channelSet : Bool) (t : String) :
    ∀ (envs : List PollEnv) (s : Store),
      (runCycles cfg channelSet envs s).2.count t ≤ 1 ∧
      (hasProcessedTweet s t = true → (runCycles cfg channelSet envs s).2.count t = 0) := by
  intro envs
  induction envs with
  | nil => intro s; simp [runCycles]
  | cons env rest ih =>
    intro s
    have hcyc := checkTwitterActivity_announce cfg channelSet env t s
    have hrest := ih (checkTwitterActivity cfg env channelSet s).1
    have hshape : (runCycles cfg channelSet (env :: rest) s).2 =
        (checkTwitterActivity cfg env channelSet s).2 ++
          (runCycles cfg channelSet rest (checkTwitterActivity cfg env channelSet s).1).2 := rfl
    constructor
    · rw [hshape, List.count_append]
      rcases Nat.eq_zero_or_pos ((checkTwitterActivity cfg env channelSet s).2.count t)
        with hz | hpos
      · have h1 := hrest.1
        omega
      · have hproc := hcyc.2.1 hpos
        have h0 := hrest.2 hproc
        have h1 := hcyc.1
        omega
    · intro h
      rw [hshape, List.count_append]
      have hc := hcyc.2.2 h
      have h0 := hrest.2 hc.1
      omega

/-- Evaluation of `awardPoints` on a one-row store holding a verified
user, with the update succeeding and a nonzero amount. -/
theorem awardPoints_single_user (did tid : String) (u : UserRecord)
    (logs : List ActivityLogEntry) (alogs : List AdminLogEntry) (proc : List String)
    (amt : Int) (act : String)
    (hu : u.twitter_id = some tid) (htid : (tid == "") = false) (hnz : amt ≠ 0) :
    awardPoints ⟨[(did, u)], logs, alogs, proc⟩ true did amt act =
      (⟨some (u.points + amt), u.notify_enabled, true⟩,
       ⟨[(did, { u with points := u.points + amt })],
        logs ++ [⟨did, act, amt⟩], alogs, proc⟩) := by
  obtain ⟨utw, usw, upts, unot⟩ := u
  have hu2 : utw = some tid := hu
  subst hu2
  have hlook : lookupUser ⟨[(did, ⟨some tid, usw, upts, unot⟩)], logs, alogs, proc⟩ did =
      some ⟨some tid, usw, upts, unot⟩ := by
    simp [lookupUser]
  have hver : strTruthy (some tid) = true := by
    unfold strTruthy
    simpa using htid
  unfold awardPoints
  rw [hlook]
  simp [hver, hnz, updateUser, logActivity]

/-- Evaluation of the engagement pass for one tweet on a one-row store:
the verified user appears among the likers and not among the retweeters,
so exactly the like reward is credited and logged. -/
theorem atep_single_user (cfg : ScoreConfig) (ao : Option String)
    (tlo : Option (List String)) (e : String → Option (List String × List String))
    (t did tid : String) (u : UserRecord) (logs : List ActivityLogEntry)
    (alogs : List AdminLogEntry) (proc : List String) (L R : List String)
    (hu : u.twitter_id = some tid) (htid : (tid == "") = false)
    (he : e t = some (L, R)) (hL : L.contains tid = true)
    (hR : R.contains tid = false) (hlp : cfg.likePoints ≠ 0) :
    awardTweetEngagementPoints cfg ⟨ao, tlo, e, true⟩ ⟨[(did, u)], logs, alogs, proc⟩ t =
      ⟨[(did, { u with points := u.points + cfg.likePoints })],
       logs ++ [⟨did, "twitter_like", cfg.likePoints⟩], alogs, proc⟩ := by
  unfold awardTweetEngagementPoints
  show (match e t with
    | none => (⟨[(did, u)], logs, alogs, proc⟩ : Store)
    | some (likesData, retweetsData) =>
      List.foldl (engageUser cfg true likesData retweetsData)
        ⟨[(did, u)], logs, alogs, proc⟩ [(did, u)]) = _
  rw [he]
  show engageUser cfg true L R ⟨[(did, u)], logs, alogs, proc⟩ (did, u) = _
  unfold engageUser
  show (match u.twitter_id with
    | none => (⟨[(did, u)], logs, alogs, proc⟩ : Store)
    | some tid => _) = _
  rw [hu]
  simp only [htid, Bool.false_eq_true, if_false, hL, if_true, hR]
  rw [awardPoints_single_user did tid u logs alogs proc cfg.likePoints "twitter_like"
    hu htid hlp]
  rw [hu]

/-- Evaluation of one full poll cycle on a one-row store whose verified
user likes the sole timeline tweet: the engagement pass always runs, while
marking and announcing happen only when the tweet is not yet processed. -/
theorem cycle_single_user (cfg : ScoreConfig) (acct t did tid : String)
    (u : UserRecord) (e : String → Option (List String × List String))
    (logs : List ActivityLogEntry) (alogs : List AdminLogEntry) (proc : List String)
    (L R : List String)
    (hu : u.twitter_id = some tid) (htid : (tid == "") = false)
    (he : e t = some (L, R)) (hL : L.contains tid = true)
    (hR : R.contains tid = false) (hlp : cfg.likePoints ≠ 0) :
    checkTwitterActivity cfg ⟨some acct, some [t], e, true⟩ true
        ⟨[(did, u)], logs, alogs, proc⟩ =
      (⟨[(did, { u with points := u.points + cfg.likePoints })],
        logs ++ [⟨did, "twitter_like", cfg.likePoints⟩], alogs,
        if proc.contains t = true then proc else proc ++ [t]⟩,
       if proc.contains t = true then [] else [t]) := by
  unfold checkTwitterActivity
  show List.foldl (processTweet cfg ⟨some acct, some [t], e, true⟩ true)
      (⟨[(did, u)], logs, alogs, proc⟩, []) [t] = _
  show processTweet cfg ⟨some acct, some [t], e, true⟩ true
      (⟨[(did, u)], logs, alogs, proc⟩, []) t = _
  unfold processTweet hasProcessedTweet
  dsimp only
  cases hp : proc.contains t with
  | false =>
    show (awardTweetEngagementPoints cfg ⟨some acct, some [t], e, true⟩
        ⟨[(did, u)], logs, alogs, proc ++ [t]⟩ t, [] ++ [t]) = _
    rw [atep_single_user cfg (some acct) (some [t]) e t did tid u logs alogs
      (proc ++ [t]) L R hu htid he hL hR hlp]
    rfl
  | true =>
    show (awardTweetEngagementPoints cfg ⟨some acct, some [t], e, true⟩
        ⟨[(did, u)], logs, alogs, proc⟩ t, ([] : List String)) = _
    rw [atep_single_user cfg (some acct) (some [t]) e t did tid u logs alogs
      proc L R hu htid he hL hR hlp]
    rfl

/-- C2: across any number of consecutive poll cycles, a post is announced
(marked processed and its link sent) at most once, on the first cycle that
finds it unprocessed; while the engagement evaluation runs every cycle
regardless of the processed mark, so a verified user whose handle still
appears in the liked-by set of the same tweet on the next cycle is
credited (and logged) again. -/
theorem post_announce_once_engagement_repeats :
    (∀ (cfg : ScoreConfig) (channelSet : Bool) (envs : List PollEnv)
       (s : Store) (t : String),
       (runCycles cfg channelSet envs s).2.count t ≤ 1) ∧
    (∀ (cfg : ScoreConfig) (acct t did tid : String) (u : UserRecord)
       (e1 e2 : String → Option (List String × List String))
       (L1 R1 L2 R2 : List String)
       (logs : List ActivityLogEntry) (alogs : List AdminLogEntry) (proc : List String),
       u.twitter_id = some tid → (tid == "") = false →
       e1 t = some (L1, R1) → e2 t = some (L2, R2) →
       L1.contains tid = true → R1.contains tid = false →
       L2.contains tid = true → R2.contains tid = false →
       proc.contains t = false → cfg.likePoints ≠ 0 →
       checkTwitterActivity cfg ⟨some acct, some [t], e1, true⟩ true
           ⟨[(did, u)], logs, alogs, proc⟩ =
         (⟨[(did, { u with points := u.points + cfg.likePoints })],
           logs ++ [⟨did, "twitter_like", cfg.likePoints⟩], alogs, proc ++ [t]⟩,
          [t]) ∧
       checkTwitterActivity cfg ⟨some acct, some [t], e2, true⟩ true
           ⟨[(did, { u with points := u.points + cfg.likePoints })],
            logs ++ [⟨did, "twitter_like", cfg.likePoints⟩], alogs, proc ++ [t]⟩ =
         (⟨[(did, { u with points := u.points + cfg.likePoints + cfg.likePoints })],
           logs ++ [⟨did, "twitter_like", cfg.likePoints⟩,
             ⟨did, "twitter_like", cfg.likePoints⟩],
           alogs, proc ++ [t]⟩,
          [])) := by
  constructor
  · intro cfg channelSet envs s t
    exact (runCycles_announce_once cfg channelSet t envs s).1
  · intro cfg acct t did tid u e1 e2 L1 R1 L2 R2 logs alogs proc
      hu htid he1 he2 hL1 hR1 hL2 hR2 hproc hlp
    have hmem : t ∉ proc := by simpa using hproc
    constructor
    · have h := cycle_single_user cfg acct t did tid u e1 logs alogs proc L1 R1
        hu htid he1 hL1 hR1 hlp
      simpa [hmem] using h
    · have hpt : t ∈ proc ++ [t] := by simp
      have h := cycle_single_user cfg acct t did tid
        { u with points := u.points + cfg.likePoints } e2
        (logs ++ [⟨did, "twitter_like", cfg.likePoints⟩]) alogs (proc ++ [t]) L2 R2
        hu htid he2 hL2 hR2 hlp
      simpa [hpt, List.append_assoc] using h

/-- Witness for C2: a verified user who keeps liking the sole timeline
tweet is credited on the first cycle (announced) and again on the second
(not announced). -/
theorem post_announce_once_engagement_repeats_witness :
    (runCycles defaultScoreConfig true
        [⟨some "acct", some ["t1"], fun _ => some (["tw1"], []), true⟩,
         ⟨some "acct", some ["t1"], fun _ => some (["tw1"], []), true⟩]
        ⟨[("alice", ⟨some "tw1", none, 3, true⟩)], [], [], []⟩).2.count "t1" ≤ 1 ∧
    checkTwitterActivity defaultScoreConfig
        ⟨some "acct", some ["t1"], fun _ => some (["tw1"], []), true⟩ true
        ⟨[("alice", ⟨some "tw1", none, 3, true⟩)], [], [], []⟩ =
      (⟨[("alice", ⟨some "tw1", none, 7, true⟩)],
        [⟨"alice", "twitter_like", 4⟩], [], ["t1"]⟩, ["t1"]) := by
  constructor
  · exact post_announce_once_engagement_repeats.1 defaultScoreConfig true _ _ "t1"
  · have h := (post_announce_once_engagement_repeats.2 defaultScoreConfig "acct" "t1"
      "alice" "tw1" ⟨some "tw1", none, 3, true⟩
      (fun _ => some (["tw1"], [])) (fun _ => some (["tw1"], []))
      ["tw1"] [] ["tw1"] [] [] [] []
      rfl (by decide) rfl rfl (by decide) (by decide) (by decide) (by decide)
      (by decide) (by decide)).1
    exact h.trans (by decide)

/-- C3: with the default config (5 messages per point, reward 1, daily cap
20), the throttle never releases more than 20 points in a day; a 1-point
award is attempted exactly on messages 5, 10, ..., 100; and once
`pointsEarnedToday` has reached the cap, every further message of that day
releases 0 however high the message count climbs. -/
theorem daily_cap_schedule (today : String) :
    (∀ n : Nat, totalFrom defaultScoreConfig today none n ≤ 20) ∧
    (∀ k : Nat, 1 ≤ k →
      releaseFrom defaultScoreConfig today none k =
        if k % 5 = 0 ∧ k ≤ 100 then 1 else 0) ∧
    (∀ c : DailyCounter, c.date = today → 20 ≤ c.pointsEarnedToday →
      (messageThrottle defaultScoreConfig today (some c)).2 = 0) := by
  refine ⟨?_, ?_, ?_⟩
  · intro n
    cases n with
    | zero => simp [totalFrom]
    | succ n =>
      have h := (throttle_sim_closed today n).2
      omega
  · intro k hk
    obtain ⟨n, rfl⟩ : ∃ n, k = n + 1 := ⟨k - 1, by omega⟩
    cases n with
    | zero =>
      show (messageThrottle defaultScoreConfig today
        (trackFrom defaultScoreConfig today none 0)).2 = _
      simp [trackFrom, messageThrottle, rolloverAndCount, defaultScoreConfig]
    | succ n =>
      show (messageThrottle defaultScoreConfig today
        (trackFrom defaultScoreConfig today none (n + 1))).2 = _
      rw [(throttle_sim_closed today n).1, messageThrottle_closed_step today n]
      split_ifs with h <;> omega
  · intro c hd hcap
    obtain ⟨d, m, p⟩ := c
    have hd2 : d = today := hd
    have hp2 : (20 : Int) ≤ p := hcap
    have hro : rolloverAndCount today (some ⟨d, m, p⟩) = ⟨d, m + 1, p⟩ := by
      simp [rolloverAndCount, hd2]
    unfold messageThrottle
    rw [hro]
    simp only [defaultScoreConfig]
    split_ifs with h1
    · rfl
    · omega

/-- Witness for C3: the award lands on message 100 but not on 105, and 200
messages in a day release at most 20 points. -/
theorem daily_cap_schedule_witness :
    totalFrom defaultScoreConfig "2025-01-01" none 200 ≤ 20 ∧
    releaseFrom defaultScoreConfig "2025-01-01" none 100 = 1 ∧
    releaseFrom defaultScoreConfig "2025-01-01" none 105 = 0 := by
  refine ⟨(daily_cap_schedule "2025-01-01").1 200, ?_, ?_⟩
  · exact ((daily_cap_schedule "2025-01-01").2.1 100 (by decide)).trans (by decide)
  · exact ((daily_cap_schedule "2025-01-01").2.1 105 (by decide)).trans (by decide)

/-- Helper: a tracker entry whose stored date differs from the date string
the handler is processing under is reset to zero before processing (the
handler behaves as if the entry were fresh), and the fifth message of the
new run releases a point again. -/
theorem day_rollover_resets (today : String) (c : DailyCounter) (hd : c.date ≠ today) :
    (∀ cfg : ScoreConfig,
      messageThrottle cfg today (some c) = messageThrottle cfg today none) ∧
    releaseFrom defaultScoreConfig today (some c) 5 = 1 := by
  have hro : rolloverAndCount today (some c) = rolloverAndCount today none := by
    simp [rolloverAndCount, hd]
  have hreset : ∀ cfg : ScoreConfig,
      messageThrottle cfg today (some c) = messageThrottle cfg today none := by
    intro cfg
    unfold messageThrottle
    rw [hro]
  refine ⟨hreset, ?_⟩
  have htrack : ∀ n : Nat, trackFrom defaultScoreConfig today (some c) (n + 1) =
      trackFrom defaultScoreConfig today none (n + 1) := by
    intro n
    induction n with
    | zero =>
      show some (messageThrottle defaultScoreConfig today (some c)).1 =
        some (messageThrottle defaultScoreConfig today none).1
      rw [hreset]
    | succ n ih =>
      show some (messageThrottle defaultScoreConfig today
          (trackFrom defaultScoreConfig today (some c) (n + 1))).1 =
        some (messageThrottle defaultScoreConfig today
          (trackFrom defaultScoreConfig today none (n + 1))).1
      rw [ih]
  have h4 : trackFrom defaultScoreConfig today (some c) 4 =
      trackFrom defaultScoreConfig today none 4 := htrack 3
  show (messageThrottle defaultScoreConfig today
    (trackFrom defaultScoreConfig today (some c) 4)).2 = 1
  rw [h4]
  simp [trackFrom, messageThrottle, rolloverAndCount, defaultScoreConfig]

/-- C8 counterexample: at 1970-01-05T23:50Z in a process one hour east of
UTC, the calendar date of the caller (1970-01-06) already differs from
the stored tracker date (1970-01-05), yet the handler — whose date string
comes from toISOString and is therefore the UTC date — does not reset the
counters: the message count keeps climbing and the earned points stay.
So "today" is a timezone-normalized UTC date, not the local calendar
date the claim asserts. -/
theorem local_day_reset_counterexample :
    localDateString 431400000 3600000 = "1970-01-06" ∧
    toISODateString 431400000 = "1970-01-05" ∧
    localDateString 431400000 3600000 ≠
      (⟨"1970-01-05", 7, 3⟩ : DailyCounter).date ∧
    rolloverAndCount (toISODateString 431400000)
        (some ⟨"1970-01-05", 7, 3⟩) = ⟨"1970-01-05", 8, 3⟩ :=
  ⟨by decide, by decide, by decide, by decide⟩

/-- C8 (amended): the current-date string of the handler is the UTC
calendar date taken from toISOString — the day boundary is UTC midnight
for every process timezone, not the local midnight — and whenever the
stored tracker date differs from that UTC date string the counters are
reset to zero before processing; hence after a capped day, once the UTC
date advances, the fifth message of the new day earns a point again. -/
theorem day_rollover_resets_utc (nowMs : Int) (c : DailyCounter)
    (hd : c.date ≠ toISODateString nowMs) :
    (∀ cfg : ScoreConfig,
      messageThrottle cfg (toISODateString nowMs) (some c) =
        messageThrottle cfg (toISODateString nowMs) none) ∧
    releaseFrom defaultScoreConfig (toISODateString nowMs) (some c) 5 = 1 :=
  day_rollover_resets (toISODateString nowMs) c hd

/-- Witness for the amended C8: a tracker capped on 1970-01-05 releases a
point again on message 5 of 1970-01-06 UTC. -/
theorem day_rollover_resets_utc_witness :
    releaseFrom defaultScoreConfig (toISODateString 438000000)
      (some ⟨toISODateString 345600000, 200, 20⟩) 5 = 1 :=
  (day_rollover_resets_utc 438000000 ⟨toISODateString 345600000, 200, 20⟩
    (by decide)).2

/-- With the points update failing, `awardPoints` never accepts. -/
theorem awardPoints_updateErr_not_accepted (s : Store) (uid : String)
    (amt : Int) (act : String) :
    (awardPoints s false uid amt act).1.accepted = false := by
  unfold awardPoints
  cases h : lookupUser s uid with
  | none => rfl
  | some u => cases ht : strTruthy u.twitter_id <;> simp [ht, AwardResult.accepted]

/-- C9: whenever a message triggers an award attempt (message count a
multiple of the threshold, headroom left), the handler bumps
`pointsEarnedToday` by the capped amount with no look at the result of
`awardPoints`; in particular a missing/unverified user or a failing store
still consumes daily headroom while the award itself is not accepted. -/
theorem headroom_consumed_regardless (cfg : ScoreConfig) (ok : Bool) (today : String)
    (s : Store) (tr : Option DailyCounter) (uid : String) (amt : Int)
    (hcap : ¬ (rolloverAndCount today tr).pointsEarnedToday ≥ cfg.messageMaxPointsPerDay)
    (hmul : (rolloverAndCount today tr).messagesSoFar % cfg.messagesPerPoint = 0)
    (hamt : amt = min 1 (cfg.messageMaxPointsPerDay - (rolloverAndCount today tr).pointsEarnedToday))
    (hpos : ¬ amt ≤ 0) :
    handleMessage cfg ok today s tr uid =
      ⟨(awardPoints s ok uid amt "message_points").2,
       { rolloverAndCount today tr with
           pointsEarnedToday := (rolloverAndCount today tr).pointsEarnedToday + amt },
       some (amt, (awardPoints s ok uid amt "message_points").1)⟩ ∧
    ((lookupUser s uid = none ∨ ok = false) →
      (handleMessage cfg ok today s tr uid).attempted.map (fun r => r.2.accepted) =
        some false) := by
  subst hamt
  have hmain : handleMessage cfg ok today s tr uid =
      ⟨(awardPoints s ok uid
          (min 1 (cfg.messageMaxPointsPerDay - (rolloverAndCount today tr).pointsEarnedToday))
          "message_points").2,
       { rolloverAndCount today tr with
           pointsEarnedToday := (rolloverAndCount today tr).pointsEarnedToday +
             min 1 (cfg.messageMaxPointsPerDay - (rolloverAndCount today tr).pointsEarnedToday) },
       some (min 1 (cfg.messageMaxPointsPerDay - (rolloverAndCount today tr).pointsEarnedToday),
         (awardPoints s ok uid
           (min 1 (cfg.messageMaxPointsPerDay - (rolloverAndCount today tr).pointsEarnedToday))
           "message_points").1)⟩ := by
    unfold handleMessage
    rw [if_neg hcap, if_pos (by simp [hmul]), if_neg hpos]
  refine ⟨hmain, ?_⟩
  intro h
  rw [hmain]
  simp only [Option.map_some']
  rcases h with h | h
  · unfold awardPoints
    rw [h]
    rfl
  · subst h
    rw [awardPoints_updateErr_not_accepted]

/-- Witness for C9: message 5 of a fresh day by a user with no row at all
still bumps the tracker to one earned point while the award is refused. -/
theorem headroom_consumed_regardless_witness :
    handleMessage defaultScoreConfig true "2025-01-01" ⟨[], [], [], []⟩
        (some ⟨"2025-01-01", 4, 0⟩) "ghost" =
      ⟨⟨[], [], [], []⟩, ⟨"2025-01-01", 5, 1⟩, some (1, ⟨none, true, false⟩)⟩ ∧
    (handleMessage defaultScoreConfig true "2025-01-01" ⟨[], [], [], []⟩
        (some ⟨"2025-01-01", 4, 0⟩) "ghost").attempted.map (fun r => r.2.accepted) =
      some false := by
  have h := headroom_consumed_regardless defaultScoreConfig true "2025-01-01"
    ⟨[], [], [], []⟩ (some ⟨"2025-01-01", 4, 0⟩) "ghost" 1
    (by decide) (by decide) (by decide) (by decide)
  exact ⟨h.1.trans (by decide), h.2 (Or.inl (by decide))⟩

/-- Searching an appended table after an unsuccessful search of the first
part searches the second part. -/
theorem find?_append_none (p : String × UserRecord → Bool) :
    ∀ l1 l2 : List (String × UserRecord), l1.find? p = none →
      (l1 ++ l2).find? p = l2.find? p := by
  intro l1
  induction l1 with
  | nil => intro l2 _; rfl
  | cons x t ih =>
    intro l2 h
    cases hx : p x with
    | true => simp [List.find?_cons, hx] at h
    | false =>
      have h2 : t.find? p = none := by simpa [List.find?_cons, hx] using h
      simpa [List.find?_cons, hx] using ih l2 h2

/-- Finding the updated key after a keyed rewrite finds the rewritten row. -/
theorem find?_update_self (uid : String) (f : UserRecord → UserRecord) :
    ∀ l : List (String × UserRecord),
      (l.map (fun p => if p.1 == uid then (p.1, f p.2) else p)).find?
          (fun p => p.1 == uid) =
        (l.find? (fun p => p.1 == uid)).map (fun p => (p.1, f p.2)) := by
  intro l
  induction l with
  | nil => rfl
  | cons x t ih =>
    cases hx : (x.1 == uid) with
    | true =>
      have hx2 : (((x.1, f x.2) : String × UserRecord).1 == uid) = true := hx
      rw [List.map_cons, if_pos hx,
        @List.find?_cons_of_pos _ (fun p => p.1 == uid) (x.1, f x.2) _ hx2,
        @List.find?_cons_of_pos _ (fun p => p.1 == uid) x t hx]
      rfl
    | false =>
      rw [List.map_cons, if_neg (by simp [hx]),
        @List.find?_cons_of_neg _ (fun p => p.1 == uid) x _ (by simp [hx]),
        @List.find?_cons_of_neg _ (fun p => p.1 == uid) x t (by simp [hx])]
      exact ih

/-- Looking up the updated key sees the update applied to the old row. -/
theorem lookupUser_updateUser_self (s : Store) (uid : String)
    (f : UserRecord → UserRecord) :
    lookupUser (updateUser s uid f) uid = (lookupUser s uid).map f := by
  unfold lookupUser updateUser
  rw [find?_update_self]
  cases h : s.users.find? (fun p => p.1 == uid) <;> simp

/-- A keyed rewrite that fixes a projection leaves that projection of
every lookup unchanged. -/
theorem find?_map_update_field {β : Type} (g : UserRecord → β) (uid uid' : String)
    (f : UserRecord → UserRecord) (hf : ∀ v, g (f v) = g v) :
    ∀ l : List (String × UserRecord),
      ((l.map (fun p => if p.1 == uid then (p.1, f p.2) else p)).find?
          (fun p => p.1 == uid')).map (fun p => g p.2) =
        (l.find? (fun p => p.1 == uid')).map (fun p => g p.2) := by
  intro l
  induction l with
  | nil => rfl
  | cons x t ih =>
    cases hm : (x.1 == uid) with
    | true =>
      cases hx : (x.1 == uid') with
      | true =>
        have hx2 : (((x.1, f x.2) : String × UserRecord).1 == uid') = true := hx
        rw [List.map_cons, if_pos hm,
          @List.find?_cons_of_pos _ (fun p => p.1 == uid') (x.1, f x.2) _ hx2,
          @List.find?_cons_of_pos _ (fun p => p.1 == uid') x t hx]
        simp [hf]
      | false =>
        have hx2 : ¬ ((((x.1, f x.2) : String × UserRecord).1 == uid') = true) := by
          simp [hx]
        rw [List.map_cons, if_pos hm,
          @List.find?_cons_of_neg _ (fun p => p.1 == uid') (x.1, f x.2) _ hx2,
          @List.find?_cons_of_neg _ (fun p => p.1 == uid') x t (by simp [hx])]
        exact ih
    | false =>
      cases hx : (x.1 == uid') with
      | true =>
        rw [List.map_cons, if_neg (by simp [hm]),
          @List.find?_cons_of_pos _ (fun p => p.1 == uid') x _ hx,
          @List.find?_cons_of_pos _ (fun p => p.1 == uid') x t hx]
      | false =>
        rw [List.map_cons, if_neg (by simp [hm]),
          @List.find?_cons_of_neg _ (fun p => p.1 == uid') x _ (by simp [hx]),
          @List.find?_cons_of_neg _ (fun p => p.1 == uid') x t (by simp [hx])]
        exact ih

/-- The points update inside `awardPoints` never changes any stored
wallet address. -/
theorem awardPoints_sol_wallet (s : Store) (ok : Bool) (uid : String) (amt : Int)
    (act : String) (uid' : String) :
    (lookupUser (awardPoints s ok uid amt act).2 uid').map (·.sol_wallet) =
      (lookupUser s uid').map (·.sol_wallet) := by
  unfold awardPoints
  cases h : lookupUser s uid with
  | none => rfl
  | some u =>
    cases ht : strTruthy u.twitter_id with
    | false => simp [ht]
    | true =>
      cases ok with
      | false => simp [ht]
      | true =>
        have hupd : (lookupUser (updateUser s uid
            (fun v => { v with points := u.points + amt })) uid').map (·.sol_wallet) =
            (lookupUser s uid').map (·.sol_wallet) := by
          unfold lookupUser updateUser
          simpa [Option.map_map] using
            find?_map_update_field (·.sol_wallet) uid uid'
              (fun v => { v with points := u.points + amt }) (fun v => rfl) s.users
        by_cases hz : amt = 0 <;>
          simpa [ht, hz, logActivity, lookupUser] using hupd

/-- C6: the wallet address is set at most once. The first connectwallet
call with a nonempty address (row absent or wallet still unset) stores
that address, and any later connectwallet call with a nonempty address
leaves the store — and hence the first stored address and the points —
untouched and reports already-connected. -/
theorem wallet_set_once (cfg : ScoreConfig) (ok1 ok2 : Bool) (s : Store)
    (uid a a2 : String) (ha : a ≠ "") (ha2 : a2 ≠ "")
    (hfree : ∀ u, lookupUser s uid = some u → strTruthy u.sol_wallet = false) :
    (∃ u1, lookupUser (connectwallet cfg ok1 s uid (some a)).1 uid = some u1 ∧
       u1.sol_wallet = some a) ∧
    connectwallet cfg ok2 (connectwallet cfg ok1 s uid (some a)).1 uid (some a2) =
      ((connectwallet cfg ok1 s uid (some a)).1, .alreadyConnected) := by
  have hwa : strTruthy (some a) = true := by
    unfold strTruthy
    simpa using ha
  have hwa2 : strTruthy (some a2) = true := by
    unfold strTruthy
    simpa using ha2
  have hwallet : (lookupUser (connectwallet cfg ok1 s uid (some a)).1 uid).map
      (·.sol_wallet) = some (some a) := by
    unfold connectwallet
    simp only [hwa, Bool.not_true, Bool.false_eq_true, if_false, Option.getD_some]
    cases hl : lookupUser s uid with
    | none =>
      have hfind : s.users.find? (fun p => p.1 == uid) = none := by
        unfold lookupUser at hl
        exact Option.map_eq_none'.mp hl
      have hlk : lookupUser
          { s with users := s.users ++ [(uid, ⟨none, some a, 0, true⟩)] } uid =
          some ⟨none, some a, 0, true⟩ := by
        unfold lookupUser
        rw [find?_append_none _ _ _ hfind]
        simp [List.find?_cons]
      rw [hlk]
      simp [strTruthy, hlk]
    | some u =>
      have hw0 := hfree u hl
      simp only [hw0, Bool.false_eq_true, if_false]
      have hs1 : (lookupUser (updateUser s uid
          (fun v => { v with sol_wallet := some a })) uid).map
          (·.sol_wallet) = some (some a) := by
        rw [lookupUser_updateUser_self, hl]
        rfl
      cases htw : strTruthy u.twitter_id with
      | false => simpa using hs1
      | true =>
        simp only [htw, Bool.not_true, Bool.false_eq_true, if_false]
        cases hnp : (awardPoints (updateUser s uid
            (fun v => { v with sol_wallet := some a })) ok1 uid
            cfg.connectWalletPoints "connect_wallet").1.newPoints with
        | none =>
          simpa [awardPoints_sol_wallet] using hs1
        | some np =>
          simpa [awardPoints_sol_wallet] using hs1
  obtain ⟨u1, hu1, hw1⟩ : ∃ u1,
      lookupUser (connectwallet cfg ok1 s uid (some a)).1 uid = some u1 ∧
      u1.sol_wallet = some a := by
    cases hx : lookupUser (connectwallet cfg ok1 s uid (some a)).1 uid with
    | none => rw [hx] at hwallet; simp at hwallet
    | some u1 =>
      rw [hx] at hwallet
      exact ⟨u1, rfl, by simpa using hwallet⟩
  refine ⟨⟨u1, hu1, hw1⟩, ?_⟩
  generalize hS : (connectwallet cfg ok1 s uid (some a)).1 = S at hu1 ⊢
  unfold connectwallet
  simp only [hwa2, Bool.not_true, Bool.false_eq_true, if_false]
  rw [hu1]
  have hset : strTruthy u1.sol_wallet = true := by
    rw [hw1]
    unfold strTruthy
    simpa using ha
  simp [hset]

/-- Witness for C6: a verified, wallet-free user connects a wallet; the
second attempt is rejected with already-connected and changes nothing. -/
theorem wallet_set_once_witness :
    connectwallet defaultScoreConfig true
        (connectwallet defaultScoreConfig true
          ⟨[("bob", ⟨some "twb", none, 0, true⟩)], [], [], []⟩ "bob" (some "w1")).1
        "bob" (some "w2") =
      ((connectwallet defaultScoreConfig true
          ⟨[("bob", ⟨some "twb", none, 0, true⟩)], [], [], []⟩ "bob" (some "w1")).1,
       .alreadyConnected) := by
  have heval : lookupUser ⟨[("bob", ⟨some "twb", none, 0, true⟩)], [], [], []⟩ "bob" =
      some ⟨some "twb", none, 0, true⟩ := by decide
  exact (wallet_set_once defaultScoreConfig true true
    ⟨[("bob", ⟨some "twb", none, 0, true⟩)], [], [], []⟩ "bob" "w1" "w2"
    (by decide) (by decide)
    (fun u hu => by
      rw [← Option.some.inj (heval.symm.trans hu)]
      rfl)).2

/-- C10: the verify command upserts on the Discord id: it always reports
success and stores exactly the newly supplied handle — overwriting any
previously linked one while keeping the other columns — and a nonempty
new handle makes the user verified again. -/
theorem verify_overwrites_handle (s : Store) (uid t : String) :
    (verifyCmd s uid t).2 = true ∧
    lookupUser (verifyCmd s uid t).1 uid =
      some (match lookupUser s uid with
            | some u => { u with twitter_id := some t }
            | none => ⟨some t, none, 0, true⟩) ∧
    (t ≠ "" → userVerified (verifyCmd s uid t).1 uid = true) := by
  have hmain : lookupUser (verifyCmd s uid t).1 uid =
      some (match lookupUser s uid with
            | some u => { u with twitter_id := some t }
            | none => ⟨some t, none, 0, true⟩) := by
    unfold verifyCmd
    cases hl : lookupUser s uid with
    | some u =>
      rw [lookupUser_updateUser_self, hl]
      rfl
    | none =>
      have hfind : s.users.find? (fun p => p.1 == uid) = none := by
        unfold lookupUser at hl
        exact Option.map_eq_none'.mp hl
      unfold lookupUser
      rw [find?_append_none _ _ _ hfind]
      simp [List.find?_cons]
  have hok : (verifyCmd s uid t).2 = true := by
    unfold verifyCmd
    cases hl : lookupUser s uid <;> rfl
  refine ⟨hok, hmain, ?_⟩
  intro ht
  unfold userVerified
  rw [hmain]
  cases hl : lookupUser s uid <;>
    (unfold strTruthy; simpa using ht)

/-- Witness for C10: verifying again replaces an existing handle with the
new one, keeps the wallet and points, reports success, and the user is
verified under the new handle. -/
theorem verify_overwrites_handle_witness :
    (verifyCmd ⟨[("alice", ⟨some "old", some "w", 5, false⟩)], [], [], []⟩
        "alice" "new").2 = true ∧
    lookupUser (verifyCmd ⟨[("alice", ⟨some "old", some "w", 5, false⟩)], [], [], []⟩
        "alice" "new").1 "alice" = some ⟨some "new", some "w", 5, false⟩ ∧
    userVerified (verifyCmd ⟨[("alice", ⟨some "old", some "w", 5, false⟩)], [], [], []⟩
        "alice" "new").1 "alice" = true := by
  have h := verify_overwrites_handle
    ⟨[("alice", ⟨some "old", some "w", 5, false⟩)], [], [], []⟩ "alice" "new"
  exact ⟨h.1, h.2.1.trans (by decide), h.2.2 (by decide)⟩

end EngagementBot
